import Mathlib

/-! Shallow embedding of `src/app.py` (LetterRing, a spelling-bee style word
game). Words, guesses and seeds are modelled as `List Char`; Python string
operations (`.strip()`, `.upper()`, the `[^A-Z]` regex of `normalize`,
slicing) become explicit list functions. The random source
(`random.choice`, `random.shuffle`) is modelled by a `Rand` parameter
supplying the stream of seed choices, the two shuffles (arbitrary
rearrangement functions standing for the random permutations) and the
index of the mandatory-letter choice. Streamlit session state becomes the
`GameState` structure; the UI message calls (`st.warning` / `st.error` /
`st.success`, balloons and applause) become the `SubmitResult` value
returned next to the updated state.
-/

namespace LetterRing

/-- Python `s.strip()` on the characters of a string: drop leading and
trailing whitespace. -/
def pyStrip (l : List Char) : List Char :=
  ((l.dropWhile Char.isWhitespace).reverse.dropWhile Char.isWhitespace).reverse

/-- Python `s.upper()` on the characters of a string. -/
def pyUpper (l : List Char) : List Char :=
  l.map Char.toUpper

/-- `app.py` line 35: `normalize(word) = re.sub(r"[^A-Z]", "", word.upper())` —
uppercase, then keep only the characters A–Z. -/
def normalize (word : List Char) : List Char :=
  (pyUpper word).filter (fun c => decide ('A' ≤ c ∧ c ≤ 'Z'))

/-- The body of the loop of `generate_valid_words` (lines 42–51): each raw
dictionary entry is normalized and kept exactly when it survives the three
`continue` guards (length ≥ 3, mandatory letter present, letters inside the
letter set; `set(word) - letters_set` nonempty means some letter falls
outside). -/
def validStep (letters : List Char) (mandatory : Char) (w : List Char) :
    Option (List Char) :=
  let word := normalize w
  if word.length < 3 then none
  else if mandatory ∉ word then none
  else if ∃ c ∈ word, c ∉ letters then none
  else some word

/-- `app.py` lines 39–54: filter the word list, then `sorted(set(valid))`.
`sorted(set(..))` returns the distinct surviving words in increasing
lexicographic order; `insertionSort` of `dedup` produces exactly that list
(sorting makes the iteration order of the Python set irrelevant). -/
def generate_valid_words (letters : List Char) (mandatory : Char)
    (wordlist : List (List Char)) : List (List Char) :=
  List.insertionSort (· ≤ ·) ((wordlist.filterMap (validStep letters mandatory)).dedup)

/-- `app.py` lines 9–20: the curated seed list. -/
def SEEDS : List (List Char) :=
  ["RAINBOW".toList, "SILENCE".toList, "CAPTURE".toList, "NETWORK".toList,
   "ORCHARD".toList, "TREASON".toList, "BALANCE".toList, "HARMONY".toList,
   "LIBRARY".toList, "MOUNTAIN".toList, "FANTASY".toList, "TRIANGLE".toList,
   "NOTEBOOK".toList, "FIREPLACE".toList, "SUNLIGHT".toList, "PAINTER".toList,
   "CARTOON".toList, "MIRACLE".toList, "FOREIGN".toList, "GLACIER".toList,
   "WHISPER".toList, "JOURNAL".toList, "KITCHEN".toList, "MONSTER".toList,
   "PICTURE".toList, "ROCKETS".toList, "SCARLET".toList, "THEATER".toList,
   "VICTORY".toList, "WEALTHY".toList, "ADVENTURE".toList, "BRILLIANT".toList,
   "CREATION".toList, "DISCOVER".toList, "ELEGANCE".toList, "FREEDOM".toList,
   "GARDENS".toList, "HORIZON".toList, "IMAGINE".toList, "JUNCTION".toList,
   "KINGDOMS".toList, "LANGUAGE".toList, "MOMENTS".toList, "NATURAL".toList,
   "PASSION".toList, "QUANTUM".toList, "RESCUE".toList, "SEASONS".toList,
   "THOUGHT".toList, "WONDER".toList]

/-- Python `string.ascii_uppercase`. -/
def asciiUppercase : List Char :=
  "ABCDEFGHIJKLMNOPQRSTUVWXYZ".toList

/-- Python `list(dict.fromkeys(seed))` (line 65): the distinct characters of
the seed in order of first occurrence. -/
def dedupFirst : List Char → List Char
  | [] => []
  | c :: rest => c :: (dedupFirst rest).filter (fun d => decide (d ≠ c))

/-- Python slicing `l[:n]` where `n` may be negative: a negative stop counts
from the end (`max 0 (len l + n)` elements are taken). -/
def pySliceTo (l : List α) (n : Int) : List α :=
  if 0 ≤ n then l.take n.toNat else l.take ((l.length : Int) + n).toNat

/-- The random source consumed by `start_new_game`: the stream of
`random.choice(SEEDS)` results (index 0 is the choice before the loop,
index `i ≥ 1` the choice of iteration `i`), the two `random.shuffle`
results as rearrangement functions, and the index drawn by
`random.choice(letters)` for the mandatory letter. -/
structure Rand where
  seedChoices : Nat → List Char
  shuffleExtra : List Char → List Char
  shuffleLetters : List Char → List Char
  mandIdx : Nat

/-- The retry loop of `start_new_game` (lines 59–63):
`while len(set(seed)) != 7 and attempts < 50: seed = random.choice(SEEDS)`.
The fuel is `50 - attempts`, `i` indexes the next stream element. -/
def chooseSeedAux (stream : Nat → List Char) : Nat → Nat → List Char → List Char
  | 0, _, seed => seed
  | fuel + 1, i, seed =>
      if (dedupFirst seed).length = 7 then seed
      else chooseSeedAux stream fuel (i + 1) (stream i)

/-- The seed resulting from `random.choice(SEEDS)` followed by the bounded
retry loop. -/
def chooseSeed (stream : Nat → List Char) : List Char :=
  chooseSeedAux stream 50 1 (stream 0)

/-- The Streamlit session state written by `start_new_game` (lines 79–89)
and read/mutated by `handle_submit`. -/
structure GameState where
  seed : List Char
  letters : List Char
  mandatory : Char
  valid_words : List (List Char)
  wordset : List (List Char)
  found : List (List Char)
  score : Nat
  guess_input : List Char
  show_pangram : Bool
deriving DecidableEq

/-- `app.py` lines 57–89, `start_new_game`. The Python `wordset` is the set
`{normalize(w) for w in wordlist}`; it is modelled by the list
`wordlist.map normalize`, used only through membership. `random.choice(letters)`
is modelled by indexing with `mandIdx % letters.length` (default `'A'`
unreachable for nonempty `letters`). -/
def start_new_game (r : Rand) (wordlist : List (List Char)) : GameState :=
  let seed := chooseSeed r.seedChoices
  let letters0 := dedupFirst seed
  let letters1 :=
    if letters0.length ≠ 7 then
      letters0 ++ pySliceTo
        (r.shuffleExtra (asciiUppercase.filter (fun c => decide (c ∉ letters0))))
        ((7 : Int) - (letters0.length : Int))
    else letters0
  let letters := r.shuffleLetters letters1
  let mandatory := letters.getD (r.mandIdx % letters.length) 'A'
  { seed := seed
    letters := letters
    mandatory := mandatory
    valid_words := generate_valid_words letters mandatory wordlist
    wordset := wordlist.map normalize
    found := []
    score := 0
    guess_input := []
    show_pangram := false }

/-- The user-visible outcome of one `handle_submit` call: the silent
empty-guess return, the three rejection messages (`st.warning` for a
duplicate, `st.error` for an unrecognized or invalid word), or acceptance
with its points, bonus and whether the every-5th-word celebration
(balloons + applause) fired. -/
inductive SubmitResult where
  | noop : SubmitResult
  | duplicate : SubmitResult
  | unknownWord : SubmitResult
  | invalid : SubmitResult
  | accepted (points : Nat) (bonus : Nat) (milestone : Bool) : SubmitResult
deriving DecidableEq

/-- The rejection condition of `app.py` line 114:
`len(guess_norm) < 3 or set(guess_norm) - letters_set or mandatory not in guess_norm`. -/
def badGuess (letters : List Char) (mandatory : Char) (g : List Char) : Prop :=
  g.length < 3 ∨ (∃ c ∈ g, c ∉ letters) ∨ mandatory ∉ g

instance (letters : List Char) (mandatory : Char) (g : List Char) :
    Decidable (badGuess letters mandatory g) := by
  unfold badGuess; infer_instance

/-- `app.py` lines 96–135, `handle_submit`. `guess_input` is cleared before
any check (line 98). The `"wordset" not in st.session_state` and
`"seed" in st.session_state` guards are vacuous here because `GameState`
always carries both fields (they are set by `start_new_game`). -/
def handle_submit (s : GameState) : GameState × SubmitResult :=
  let guess := pyUpper (pyStrip s.guess_input)
  let s1 : GameState := { s with guess_input := [] }
  if guess = [] then (s1, .noop)
  else
    let g := normalize guess
    if g ∈ s.found then (s1, .duplicate)
    else if g ∉ s.wordset then (s1, .unknownWord)
    else if badGuess s.letters s.mandatory g then (s1, .invalid)
    else
      let found1 := s.found ++ [g]
      let points := g.length
      let bonus := if g = normalize s.seed then 10 else 0
      ({ s1 with found := found1, score := s.score + (points + bonus) },
       .accepted points bonus (decide (found1.length % 5 = 0)))

/-- One user interaction: type `raw` into the guess box, press Submit. -/
def submit (s : GameState) (raw : List Char) : GameState × SubmitResult :=
  handle_submit { s with guess_input := raw }

/-- Run a whole sequence of submissions. -/
def run (s : GameState) (raws : List (List Char)) : GameState :=
  raws.foldl (fun st raw => (submit st raw).1) s

/-- `app.py` lines 138–139: `is_pangram(word, letters_set) = set(word) >= letters_set`. -/
def is_pangram (word : List Char) (letters_set : List Char) : Bool :=
  decide (∀ c ∈ letters_set, c ∈ word)

/-- Whether a submission outcome triggered the celebration side effect
(balloons and applause happen only in the accepted branch, lines 129–135). -/
def firesMilestone : SubmitResult → Bool
  | .accepted _ _ m => m
  | _ => false

/-- A submission outcome that reached the acceptance branch. -/
def isAccepted : SubmitResult → Prop
  | .accepted _ _ _ => True
  | _ => False

/-- The score determined by the found list and the seed: sum of word
lengths, plus 10 when the normalized seed itself has been found. -/
def scoreOf (found : List (List Char)) (seed : List Char) : Nat :=
  (found.map List.length).sum + (if normalize seed ∈ found then 10 else 0)

/-- The session invariant tying a state to the word list it was built
from: `valid_words` and `wordset` are the precomputed structures of
`start_new_game`, every found word lies in `valid_words`, and no word was
found twice. -/
def SessionInv (wordlist : List (List Char)) (s : GameState) : Prop :=
  s.valid_words = generate_valid_words s.letters s.mandatory wordlist ∧
  s.wordset = wordlist.map normalize ∧
  (∀ w ∈ s.found, w ∈ s.valid_words) ∧
  s.found.Nodup

/-- A possible draw of the random source in which every one of the 51
`random.choice(SEEDS)` calls returns `"TRIANGLE"` (a legal member of
`SEEDS` with 8 distinct letters), the shuffles happen to be the identity
permutation, and the mandatory index is 0. -/
def badRand : Rand :=
  { seedChoices := fun _ => "TRIANGLE".toList
    shuffleExtra := id
    shuffleLetters := id
    mandIdx := 0 }

/-- A small concrete session used to witness the guess-handling theorems:
letter set S,T,A,R,E,L,I with mandatory R, seed RELATES, and a three-word
dictionary lookup set. -/
def demoState : GameState :=
  { seed := "RELATES".toList
    letters := "STARELI".toList
    mandatory := 'R'
    valid_words := [("RELATES".toList), ("STARE".toList)]
    wordset := [("STARE".toList), ("BED".toList), ("RELATES".toList)]
    found := []
    score := 0
    guess_input := []
    show_pangram := false }

/-! Helper lemmas -/

theorem validStep_eq_some (letters : List Char) (mandatory : Char)
    (v w : List Char) :
    validStep letters mandatory v = some w ↔
      normalize v = w ∧ 3 ≤ w.length ∧ mandatory ∈ w ∧ ∀ c ∈ w, c ∈ letters := by
  simp only [validStep]
  by_cases h1 : (normalize v).length < 3
  · rw [if_pos h1]
    constructor
    · intro h; cases h
    · rintro ⟨rfl, h, -, -⟩; exfalso; omega
  rw [if_neg h1]
  by_cases h2 : mandatory ∈ normalize v
  · rw [if_neg (not_not_intro h2)]
    by_cases h3 : ∃ c ∈ normalize v, c ∉ letters
    · rw [if_pos h3]
      constructor
      · intro h; cases h
      · rintro ⟨rfl, -, -, hsub⟩
        obtain ⟨c, hc, hcL⟩ := h3
        exact absurd (hsub c hc) hcL
    · rw [if_neg h3]
      simp only [Option.some.injEq]
      constructor
      · rintro rfl
        refine ⟨rfl, by omega, h2, ?_⟩
        intro c hc
        by_contra hcL
        exact h3 ⟨c, hc, hcL⟩
      · exact fun h => h.1
  · rw [if_pos h2]
    constructor
    · intro h; cases h
    · rintro ⟨rfl, -, hm, -⟩; exact absurd hm h2

theorem mem_generate_valid_words {letters : List Char} {mandatory : Char}
    {wordlist : List (List Char)} {w : List Char} :
    w ∈ generate_valid_words letters mandatory wordlist ↔
      (∃ v ∈ wordlist, normalize v = w) ∧ 3 ≤ w.length ∧ mandatory ∈ w ∧
        ∀ c ∈ w, c ∈ letters := by
  unfold generate_valid_words
  rw [(List.perm_insertionSort _ _).mem_iff, List.mem_dedup, List.mem_filterMap]
  constructor
  · rintro ⟨v, hv, hsome⟩
    obtain ⟨rfl, h⟩ := (validStep_eq_some _ _ _ _).mp hsome
    exact ⟨⟨v, hv, rfl⟩, h⟩
  · rintro ⟨⟨v, hv, hnv⟩, h3, hm, hsub⟩
    exact ⟨v, hv, (validStep_eq_some _ _ _ _).mpr ⟨hnv, h3, hm, hsub⟩⟩

theorem normalize_nil : normalize [] = [] := rfl

theorem submit_noop (s : GameState) (raw : List Char)
    (h : pyUpper (pyStrip raw) = []) :
    submit s raw = ({ s with guess_input := [] }, SubmitResult.noop) := by
  simp only [submit, handle_submit]
  rw [if_pos h]

theorem submit_duplicate (s : GameState) (raw : List Char)
    (hne : pyUpper (pyStrip raw) ≠ [])
    (hdup : normalize (pyUpper (pyStrip raw)) ∈ s.found) :
    submit s raw = ({ s with guess_input := [] }, SubmitResult.duplicate) := by
  simp only [submit, handle_submit]
  rw [if_neg hne, if_pos hdup]

theorem submit_unknown (s : GameState) (raw : List Char)
    (hne : pyUpper (pyStrip raw) ≠ [])
    (hdup : normalize (pyUpper (pyStrip raw)) ∉ s.found)
    (hunk : normalize (pyUpper (pyStrip raw)) ∉ s.wordset) :
    submit s raw = ({ s with guess_input := [] }, SubmitResult.unknownWord) := by
  simp only [submit, handle_submit]
  rw [if_neg hne, if_neg hdup, if_pos hunk]

theorem submit_invalid (s : GameState) (raw : List Char)
    (hne : pyUpper (pyStrip raw) ≠ [])
    (hdup : normalize (pyUpper (pyStrip raw)) ∉ s.found)
    (hmem : normalize (pyUpper (pyStrip raw)) ∈ s.wordset)
    (hbad : badGuess s.letters s.mandatory (normalize (pyUpper (pyStrip raw)))) :
    submit s raw = ({ s with guess_input := [] }, SubmitResult.invalid) := by
  simp only [submit, handle_submit]
  rw [if_neg hne, if_neg hdup, if_neg (not_not_intro hmem), if_pos hbad]

theorem submit_accept (s : GameState) (raw : List Char)
    (hne : pyUpper (pyStrip raw) ≠ [])
    (hdup : normalize (pyUpper (pyStrip raw)) ∉ s.found)
    (hmem : normalize (pyUpper (pyStrip raw)) ∈ s.wordset)
    (hok : ¬ badGuess s.letters s.mandatory (normalize (pyUpper (pyStrip raw)))) :
    submit s raw =
      ({ s with guess_input := [],
                found := s.found ++ [normalize (pyUpper (pyStrip raw))],
                score := s.score + ((normalize (pyUpper (pyStrip raw))).length +
                  (if normalize (pyUpper (pyStrip raw)) = normalize s.seed
                    then 10 else 0)) },
       SubmitResult.accepted (normalize (pyUpper (pyStrip raw))).length
         (if normalize (pyUpper (pyStrip raw)) = normalize s.seed then 10 else 0)
         (decide ((s.found ++ [normalize (pyUpper (pyStrip raw))]).length % 5 = 0))) := by
  simp only [submit, handle_submit]
  rw [if_neg hne, if_neg hdup, if_neg (not_not_intro hmem), if_neg hok]

/-- Master case analysis of one submission: either it is rejected (state
unchanged apart from the cleared input buffer) or the guess passed every
check and the state gained exactly that word and its points. -/
theorem submit_spec (s : GameState) (raw : List Char) :
    ((submit s raw).1 = { s with guess_input := [] } ∧
      ((submit s raw).2 = SubmitResult.noop ∨
       (submit s raw).2 = SubmitResult.duplicate ∨
       (submit s raw).2 = SubmitResult.unknownWord ∨
       (submit s raw).2 = SubmitResult.invalid)) ∨
    (∃ g, g = normalize (pyUpper (pyStrip raw)) ∧ g ∉ s.found ∧ g ∈ s.wordset ∧
      ¬ badGuess s.letters s.mandatory g ∧
      (submit s raw).1 = { s with guess_input := [],
                                  found := s.found ++ [g],
                                  score := s.score + (g.length +
                                    (if g = normalize s.seed then 10 else 0)) } ∧
      (submit s raw).2 = SubmitResult.accepted g.length
          (if g = normalize s.seed then 10 else 0)
          (decide ((s.found ++ [g]).length % 5 = 0))) := by
  by_cases hne : pyUpper (pyStrip raw) = []
  · rw [submit_noop s raw hne]
    exact Or.inl ⟨rfl, Or.inl rfl⟩
  by_cases hdup : normalize (pyUpper (pyStrip raw)) ∈ s.found
  · rw [submit_duplicate s raw hne hdup]
    exact Or.inl ⟨rfl, Or.inr (Or.inl rfl)⟩
  by_cases hmem : normalize (pyUpper (pyStrip raw)) ∈ s.wordset
  · by_cases hbad : badGuess s.letters s.mandatory (normalize (pyUpper (pyStrip raw)))
    · rw [submit_invalid s raw hne hdup hmem hbad]
      exact Or.inl ⟨rfl, Or.inr (Or.inr (Or.inr rfl))⟩
    · rw [submit_accept s raw hne hdup hmem hbad]
      exact Or.inr ⟨normalize (pyUpper (pyStrip raw)), rfl, hdup, hmem, hbad, rfl, rfl⟩
  · rw [submit_unknown s raw hne hdup hmem]
    exact Or.inl ⟨rfl, Or.inr (Or.inr (Or.inl rfl))⟩

theorem run_nil (s : GameState) : run s [] = s := rfl

theorem run_cons (s : GameState) (raw : List Char) (rest : List (List Char)) :
    run s (raw :: rest) = run (submit s raw).1 rest := rfl

theorem score_le_submit (s : GameState) (raw : List Char) :
    s.score ≤ (submit s raw).1.score := by
  rcases submit_spec s raw with ⟨hst, -⟩ | ⟨g, -, -, -, -, hst, -⟩
  · rw [hst]
  · rw [hst]
    exact Nat.le_add_right _ _

theorem score_le_run (s : GameState) (l : List (List Char)) :
    s.score ≤ (run s l).score := by
  induction l generalizing s with
  | nil => exact Nat.le_refl _
  | cons raw rest ih =>
      rw [run_cons]
      exact Nat.le_trans (score_le_submit s raw) (ih (submit s raw).1)

theorem scoreOf_submit (s : GameState) (raw : List Char)
    (h : s.score = scoreOf s.found s.seed) :
    (submit s raw).1.score = scoreOf (submit s raw).1.found (submit s raw).1.seed := by
  rcases submit_spec s raw with ⟨hst, -⟩ | ⟨g, -, hnf, -, -, hst, -⟩
  · rw [hst]
    exact h
  · rw [hst]
    simp only [scoreOf, List.map_append, List.sum_append, List.map_cons, List.map_nil,
      List.sum_cons, List.sum_nil, List.mem_append, List.mem_singleton] at h ⊢
    by_cases hseed : g = normalize s.seed
    · have hns : normalize s.seed ∉ s.found := by rw [← hseed]; exact hnf
      rw [if_pos hseed, if_pos (Or.inr hseed.symm)]
      rw [if_neg hns] at h
      omega
    · rw [if_neg hseed, if_congr (or_iff_left (fun he => hseed he.symm)) rfl rfl]
      omega

theorem scoreOf_run (s : GameState) (l : List (List Char))
    (h : s.score = scoreOf s.found s.seed) :
    (run s l).score = scoreOf (run s l).found (run s l).seed := by
  induction l generalizing s with
  | nil => exact h
  | cons raw rest ih =>
      rw [run_cons]
      exact ih (submit s raw).1 (scoreOf_submit s raw h)

theorem sessionInv_submit (wl : List (List Char)) (s : GameState) (raw : List Char)
    (h : SessionInv wl s) : SessionInv wl (submit s raw).1 := by
  obtain ⟨h1, h2, h3, h4⟩ := h
  rcases submit_spec s raw with ⟨hst, -⟩ | ⟨g, -, hnf, hmem, hok, hst, -⟩
  · rw [hst]
    exact ⟨h1, h2, h3, h4⟩
  · rw [hst]
    refine ⟨h1, h2, ?_, ?_⟩
    · intro w hw
      have hw' : w ∈ s.found ++ [g] := hw
      show w ∈ s.valid_words
      rw [List.mem_append, List.mem_singleton] at hw'
      rcases hw' with hw' | rfl
      · exact h3 w hw'
      · rw [h1]
        rw [h2] at hmem
        obtain ⟨v, hv, hnv⟩ := List.mem_map.mp hmem
        unfold badGuess at hok
        push_neg at hok
        obtain ⟨hlen, hsub, hm⟩ := hok
        exact mem_generate_valid_words.mpr ⟨⟨v, hv, hnv⟩, hlen, hm, hsub⟩
    · show (s.found ++ [g]).Nodup
      rw [List.nodup_append]
      refine ⟨h4, List.nodup_singleton g, ?_⟩
      intro a ha hb
      rw [List.mem_singleton] at hb
      subst hb
      exact hnf ha

theorem sessionInv_run (wl : List (List Char)) (s : GameState)
    (h : SessionInv wl s) (l : List (List Char)) : SessionInv wl (run s l) := by
  induction l generalizing s with
  | nil => exact h
  | cons raw rest ih =>
      rw [run_cons]
      exact ih (submit s raw).1 (sessionInv_submit wl s raw h)

theorem sessionInv_start (r : Rand) (wl : List (List Char)) :
    SessionInv wl (start_new_game r wl) := by
  refine ⟨rfl, rfl, ?_, ?_⟩
  · intro w hw
    exact absurd hw (List.not_mem_nil w)
  · exact List.nodup_nil

theorem submit_frame (s : GameState) (raw : List Char) :
    (submit s raw).1.letters = s.letters ∧
    (submit s raw).1.mandatory = s.mandatory ∧
    (submit s raw).1.valid_words = s.valid_words ∧
    (submit s raw).1.wordset = s.wordset ∧
    (submit s raw).1.seed = s.seed := by
  rcases submit_spec s raw with ⟨hst, -⟩ | ⟨g, -, -, -, -, hst, -⟩ <;>
    rw [hst] <;> exact ⟨rfl, rfl, rfl, rfl, rfl⟩

theorem run_frame (s : GameState) (l : List (List Char)) :
    (run s l).letters = s.letters ∧
    (run s l).mandatory = s.mandatory ∧
    (run s l).valid_words = s.valid_words ∧
    (run s l).wordset = s.wordset ∧
    (run s l).seed = s.seed := by
  induction l generalizing s with
  | nil => exact ⟨rfl, rfl, rfl, rfl, rfl⟩
  | cons raw rest ih =>
      rw [run_cons]
      obtain ⟨i1, i2, i3, i4, i5⟩ := ih (submit s raw).1
      obtain ⟨f1, f2, f3, f4, f5⟩ := submit_frame s raw
      exact ⟨i1.trans f1, i2.trans f2, i3.trans f3, i4.trans f4, i5.trans f5⟩

/-! Claim theorems -/

/-- C1 (refuted by the code; the spec and the comment in the code intend a
7-letter pad): a reachable draw of the random source — all 50 retries
return the `SEEDS` member "TRIANGLE", which has 8 distinct letters, so the
attempt bound is exhausted — makes the padding branch run with the
negative Python slice bound `7 - 8 = -1`; `extra[:-1]` then appends 17
unused letters and the resulting Letter Set has 25 letters, not 7. -/
theorem start_new_game_letter_count_bug :
    (∀ i, badRand.seedChoices i ∈ SEEDS) ∧
    (start_new_game badRand []).letters.length = 25 ∧
    ¬ (start_new_game badRand []).letters.length = 7 := by
  refine ⟨fun i => ?_, by decide, by decide⟩
  show ("TRIANGLE".toList) ∈ SEEDS
  decide

/-- C2: an accepted submission appends the normalized word to the found
list and raises the score by exactly its length plus a bonus that is 10
precisely when the normalized guess equals the normalized seed; and over
any sequence of submissions the score never decreases. -/
theorem submit_accept_score_effect (s : GameState) (raw : List Char)
    (l : List (List Char)) :
    (∀ p b m, (submit s raw).2 = SubmitResult.accepted p b m →
      (submit s raw).1.found = s.found ++ [normalize (pyUpper (pyStrip raw))] ∧
      p = (normalize (pyUpper (pyStrip raw))).length ∧
      b = (if normalize (pyUpper (pyStrip raw)) = normalize s.seed then 10 else 0) ∧
      (b = 10 ↔ normalize (pyUpper (pyStrip raw)) = normalize s.seed) ∧
      (submit s raw).1.score = s.score + (p + b)) ∧
    s.score ≤ (run s l).score := by
  constructor
  · intro p b m hacc
    rcases submit_spec s raw with ⟨-, hres⟩ | ⟨g, hg, -, -, -, hst, hres⟩
    · rcases hres with h | h | h | h <;> rw [h] at hacc <;> cases hacc
    · subst hg
      rw [hres] at hacc
      injection hacc with hp hb hm
      subst hp
      subst hb
      refine ⟨by rw [hst], rfl, rfl, ?_, by rw [hst]⟩
      by_cases hC : normalize (pyUpper (pyStrip raw)) = normalize s.seed
      · rw [if_pos hC]
        simp [hC]
      · rw [if_neg hC]
        simp [hC]
  · exact score_le_run s l

theorem submit_accept_score_effect_witness :
    (submit demoState (" stare ".toList)).2 = SubmitResult.accepted 5 0 false ∧
    (submit demoState (" stare ".toList)).1.found
      = demoState.found ++ [normalize (pyUpper (pyStrip (" stare ".toList)))] ∧
    (submit demoState (" stare ".toList)).1.score = demoState.score + (5 + 0) := by
  have h := (submit_accept_score_effect demoState (" stare ".toList) []).1
    5 0 false (by decide)
  exact ⟨by decide, h.1, h.2.2.2.2⟩

/-- C3: for a guess whose normalization is non-empty, the checks apply in
the order duplicate, then dictionary membership, then letter constraints:
a word already found is reported DUPLICATE; a word absent from the lookup
set is reported UNKNOWN_WORD regardless of its letters; a dictionary word
failing the length/letter-set/mandatory constraint is reported INVALID.
The lookup set is a superset of the Valid Word Set: every generated valid
word is a normalized dictionary word. -/
theorem submit_rejection_order (s : GameState) (raw : List Char)
    (hne : normalize (pyUpper (pyStrip raw)) ≠ []) :
    (normalize (pyUpper (pyStrip raw)) ∈ s.found →
      (submit s raw).2 = SubmitResult.duplicate) ∧
    (normalize (pyUpper (pyStrip raw)) ∉ s.found →
      normalize (pyUpper (pyStrip raw)) ∉ s.wordset →
      (submit s raw).2 = SubmitResult.unknownWord) ∧
    (normalize (pyUpper (pyStrip raw)) ∉ s.found →
      normalize (pyUpper (pyStrip raw)) ∈ s.wordset →
      badGuess s.letters s.mandatory (normalize (pyUpper (pyStrip raw))) →
      (submit s raw).2 = SubmitResult.invalid) ∧
    (∀ (wordlist : List (List Char)) (w : List Char),
      w ∈ generate_valid_words s.letters s.mandatory wordlist →
      w ∈ wordlist.map normalize) := by
  have hne' : pyUpper (pyStrip raw) ≠ [] := fun h => hne (by rw [h]; rfl)
  refine ⟨?_, ?_, ?_, ?_⟩
  · intro hdup
    rw [submit_duplicate s raw hne' hdup]
  · intro hd hu
    rw [submit_unknown s raw hne' hd hu]
  · intro hd hm hb
    rw [submit_invalid s raw hne' hd hm hb]
  · intro wordlist w hw
    obtain ⟨⟨v, hv, hnv⟩, -, -, -⟩ := mem_generate_valid_words.mp hw
    exact List.mem_map.mpr ⟨v, hv, hnv⟩

theorem submit_rejection_order_witness :
    (submit { demoState with found := [("STARE".toList)] } ("stare".toList)).2
        = SubmitResult.duplicate ∧
    (submit demoState ("zzz".toList)).2 = SubmitResult.unknownWord ∧
    (submit demoState ("bed".toList)).2 = SubmitResult.invalid := by
  refine ⟨?_, ?_, ?_⟩
  · exact (submit_rejection_order { demoState with found := [("STARE".toList)] }
      ("stare".toList) (by decide)).1 (by decide)
  · exact ((submit_rejection_order demoState ("zzz".toList) (by decide)).2.1)
      (by decide) (by decide)
  · exact ((submit_rejection_order demoState ("bed".toList) (by decide)).2.2.1)
      (by decide) (by decide) (by decide)

/-- C4: a submission rejected as DUPLICATE, UNKNOWN_WORD or INVALID leaves
the score and the found list untouched — the whole session state is
unchanged apart from the cleared input buffer, so later guesses behave as
if the rejection had not happened. -/
theorem submit_rejection_frame (s : GameState) (raw : List Char)
    (h : (submit s raw).2 = SubmitResult.duplicate ∨
         (submit s raw).2 = SubmitResult.unknownWord ∨
         (submit s raw).2 = SubmitResult.invalid) :
    (submit s raw).1.score = s.score ∧
    (submit s raw).1.found = s.found ∧
    (submit s raw).1 = { s with guess_input := [] } := by
  rcases submit_spec s raw with ⟨hst, -⟩ | ⟨g, -, -, -, -, -, hres⟩
  · exact ⟨by rw [hst], by rw [hst], hst⟩
  · rw [hres] at h
    rcases h with h | h | h <;> cases h

theorem submit_rejection_frame_witness :
    (submit { demoState with found := [("STARE".toList)] } ("stare".toList)).1.score
        = ({ demoState with found := [("STARE".toList)] } : GameState).score ∧
    (submit { demoState with found := [("STARE".toList)] } ("stare".toList)).1.found
        = ({ demoState with found := [("STARE".toList)] } : GameState).found := by
  have h := submit_rejection_frame { demoState with found := [("STARE".toList)] }
    ("stare".toList) (Or.inl (by decide))
  exact ⟨h.1, h.2.1⟩

/-- C5: `generate_valid_words` returns exactly the normalized dictionary
entries of length ≥ 3 that contain the mandatory letter and use only
letters of the letter set, without duplicates and sorted in increasing
lexicographic order. -/
theorem generate_valid_words_spec (letters : List Char) (mandatory : Char)
    (wordlist : List (List Char)) :
    (∀ w, w ∈ generate_valid_words letters mandatory wordlist ↔
        ((∃ v ∈ wordlist, normalize v = w) ∧ 3 ≤ w.length ∧ mandatory ∈ w ∧
          ∀ c ∈ w, c ∈ letters)) ∧
    (generate_valid_words letters mandatory wordlist).Nodup ∧
    List.Sorted (· ≤ ·) (generate_valid_words letters mandatory wordlist) := by
  refine ⟨fun w => mem_generate_valid_words, ?_, ?_⟩
  · unfold generate_valid_words
    exact ((List.perm_insertionSort _ _).nodup_iff).mpr (List.nodup_dedup _)
  · unfold generate_valid_words
    exact List.sorted_insertionSort _ _

/-- C6: the celebration side effect fires exactly on an accepted guess
whose resulting found-word count is divisible by 5; rejected guesses never
fire it. -/
theorem submit_milestone_iff (s : GameState) (raw : List Char) :
    firesMilestone (submit s raw).2 = true ↔
      (isAccepted (submit s raw).2 ∧ (submit s raw).1.found.length % 5 = 0) := by
  rcases submit_spec s raw with ⟨-, hres⟩ | ⟨g, -, -, -, -, hst, hres⟩
  · rcases hres with h | h | h | h <;> rw [h] <;> simp [firesMilestone, isAccepted]
  · rw [hres, hst]
    simp [firesMilestone, isAccepted]

/-- C7: `is_pangram` holds exactly when the letters of the word form a superset
of the given letter set; the test does not consult the seed at all. -/
theorem is_pangram_iff (word letters_set : List Char) :
    is_pangram word letters_set = true ↔ ∀ c ∈ letters_set, c ∈ word := by
  simp [is_pangram]

/-- C8: a guess that is empty after trimming and uppercasing is silently
ignored: no error is reported and the whole session is unchanged apart
from the cleared input buffer. -/
theorem submit_empty_noop (s : GameState) (raw : List Char)
    (h : pyUpper (pyStrip raw) = []) :
    submit s raw = ({ s with guess_input := [] }, SubmitResult.noop) :=
  submit_noop s raw h

theorem submit_empty_noop_witness :
    pyUpper (pyStrip ("   ".toList)) = [] ∧
    submit demoState ("   ".toList)
      = ({ demoState with guess_input := [] }, SubmitResult.noop) :=
  ⟨by decide, submit_empty_noop demoState ("   ".toList) (by decide)⟩

/-- C9: in every session state reachable from `start_new_game` by a
sequence of submissions, the score equals the sum of the lengths of the
found words plus 10 exactly when the normalized seed is among them — so
the seed bonus counts at most once and the score is a function of the
found list and the seed. -/
theorem run_score_invariant (r : Rand) (wordlist : List (List Char))
    (l : List (List Char)) :
    (run (start_new_game r wordlist) l).score
      = scoreOf (run (start_new_game r wordlist) l).found
          (run (start_new_game r wordlist) l).seed := by
  apply scoreOf_run
  have hs : (start_new_game r wordlist).score = 0 := rfl
  have hf : (start_new_game r wordlist).found = ([] : List (List Char)) := rfl
  rw [hs, hf]
  simp [scoreOf]

/-- C10: in every session state reachable from `start_new_game` by a
sequence of submissions, the valid-word list is still the precomputed
`generate_valid_words` result, every found word belongs to it, and no
word occurs twice in the found list. -/
theorem run_found_invariant (r : Rand) (wordlist : List (List Char))
    (l : List (List Char)) :
    (run (start_new_game r wordlist) l).valid_words
      = generate_valid_words (run (start_new_game r wordlist) l).letters
          (run (start_new_game r wordlist) l).mandatory wordlist ∧
    (∀ w ∈ (run (start_new_game r wordlist) l).found,
        w ∈ (run (start_new_game r wordlist) l).valid_words) ∧
    (run (start_new_game r wordlist) l).found.Nodup := by
  have h := sessionInv_run wordlist (start_new_game r wordlist)
    (sessionInv_start r wordlist) l
  exact ⟨h.1, h.2.2.1, h.2.2.2⟩

end LetterRing
